import Mathlib

/-!
Shallow embedding of the Diablo 4 streamer companion server (`server.mjs`)
and its panel script (`panel.js`), together with proofs of behavioural
properties of the embedded code.

Strings are modelled by Lean `String`; the character-level operations the
JavaScript code performs (trim, lower-casing, regex scanning) are defined
explicitly over `List Char` so that every definition is executable.
-/

namespace D4SC

/-! ## Character / string utilities (JS `trim`, lower-casing, whitespace) -/

/-- JS whitespace test, restricted to the whitespace characters that can occur
in the texts this server manipulates (space, tab, LF, CR). -/
def isWsChar (c : Char) : Bool :=
  c == ' ' || c == '\t' || c == '\n' || c == '\r'

/-- ASCII lower-casing of one character (used to model the `i` regex flag and
`/^empty$/i`). -/
def lowerChar (c : Char) : Char :=
  if 65 ≤ c.toNat ∧ c.toNat ≤ 90 then Char.ofNat (c.toNat + 32) else c

/-- Trim leading and trailing whitespace from a character list (JS `trim`). -/
def trimChars (l : List Char) : List Char :=
  ((l.dropWhile isWsChar).reverse.dropWhile isWsChar).reverse

/-- JS `String.prototype.trim` on Lean strings. -/
def jsTrim (s : String) : String :=
  String.mk (trimChars s.data)

/-- ASCII-lower-case a whole character list. -/
def lowerChars (l : List Char) : List Char :=
  l.map lowerChar

/-! ## Build records (`defaultBuild`, `stripPlaceholder`, `readBuilds`) -/

/-- The placeholder title `"Aucune build importée"` used by `defaultBuild`. -/
def placeholderTitle : String := "Aucune build importée"

/-- One build record, as stored in `build.json`. -/
structure Build where
  source : String
  title : String
  author : String
  updatedOn : String
  url : String
  highlights : List String
deriving DecidableEq, Repr

/-- Model of `defaultBuild()` from `server.mjs`. -/
def defaultBuild : Build :=
  { source := "manual", title := placeholderTitle, author := "", updatedOn := "",
    url := "", highlights := [] }

/-- The predicate of the `stripPlaceholder` filter:
`b.source === "manual" && b.title === "Aucune build importée"`. -/
def placeholderPat (b : Build) : Bool :=
  b.source == "manual" && b.title == placeholderTitle

/-- Model of `stripPlaceholder(builds)` from `server.mjs`, on the array branch:
if the list has more than one element, remove every placeholder-pattern
entry; if nothing remains, reseed with `defaultBuild()`. -/
def stripPlaceholder (builds : List Build) : List Build :=
  let builds := if 1 < builds.length
    then builds.filter (fun b => !placeholderPat b)
    else builds
  if builds.isEmpty then [defaultBuild] else builds

/-- Model of `stripPlaceholder` on an arbitrary JSON value: the `!Array.isArray(builds)`
branch returns `[defaultBuild()]`; `none` models a non-array input. -/
def stripPlaceholderJS (builds : Option (List Build)) : List Build :=
  match builds with
  | none => [defaultBuild]
  | some l => stripPlaceholder l

/-- The possible parses of `build.json` seen by `readBuilds()`:
unreadable/corrupt JSON, a JSON array of builds, a single JSON object,
or a scalar JSON value (neither array nor object). -/
inductive BuildFile where
  | corrupt
  | arr (l : List Build)
  | obj (b : Build)
  | scalar
deriving DecidableEq, Repr

/-- Model of `readBuilds()` from `server.mjs`: array → strip; single object → wrap and
strip; anything else (parse error, scalar) → `[defaultBuild()]`. -/
def readBuilds (file : BuildFile) : List Build :=
  match file with
  | .corrupt => [defaultBuild]
  | .arr l => stripPlaceholder l
  | .obj b => stripPlaceholder [b]
  | .scalar => [defaultBuild]

/-! ## Event entries and `pickNextByStartTime` -/

/-- One raw schedule entry. `startTime` is the epoch-millisecond value of
`new Date(x.startTime).getTime()`; `none` models an invalid date (`NaN`).
`boss` and `zone` carry the extra world-boss fields (`zone` is the list of
zone names). -/
structure Entry where
  startTime : Option Int
  boss : Option String
  zone : List String
deriving DecidableEq, Repr

/-- The `(a, b) => a.startMs - b.startMs` sort order of `pickNextByStartTime`:
ascending by the attached start milliseconds. -/
def startMsLe (a b : Entry × Int) : Prop := a.2 ≤ b.2

instance : DecidableRel startMsLe :=
  fun a b => inferInstanceAs (Decidable (a.2 ≤ b.2))

instance : IsTotal (Entry × Int) startMsLe := ⟨fun a b => le_total a.2 b.2⟩

instance : IsTrans (Entry × Int) startMsLe := ⟨fun _ _ _ h1 h2 => le_trans h1 h2⟩

/-- The `.map` + `.filter` stage of `pickNextByStartTime`: attach
`startMs = new Date(x.startTime).getTime()` and keep the entry only when
that value is finite (`some`) and strictly in the future. -/
def entryWithMs (nowMs : Int) (x : Entry) : Option (Entry × Int) :=
  match x.startTime with
  | some ms => if nowMs < ms then some (x, ms) else none
  | none => none

/-- The body of `pickNextByStartTime` on an actual array: augment each entry
with its `startMs`, keep the finite strictly-future ones, sort (stably)
ascending by `startMs` and take the first. -/
def pickNextRaw (items : List Entry) (nowMs : Int) : Option (Entry × Int) :=
  (List.insertionSort startMsLe (items.filterMap (entryWithMs nowMs))).head?

/-- Model of `pickNextByStartTime(items, nowMs)` from `server.mjs`; `none` input models
the `!Array.isArray(items)` branch. -/
def pickNextByStartTime (items : Option (List Entry)) (nowMs : Int) :
    Option (Entry × Int) :=
  match items with
  | none => none
  | some l => pickNextRaw l nowMs

/-- Model of `toUnixSeconds` from `server.mjs`: `Math.floor(d.getTime() / 1000)`,
on an epoch-millisecond value (`none` = invalid date). -/
def toUnixSeconds (ms : Option Int) : Option Int :=
  ms.map (fun m => Int.fdiv m 1000)

/-- A projected next-event record, as produced by `formatEventForOverlay`. -/
structure Proj where
  type : String
  title : String
  zone : String
  startTime : Option Int
  startTs : Option Int
deriving DecidableEq, Repr

/-- Model of `formatEventForOverlay(evt, type)` from `server.mjs`. The input event is
the `startMs`-augmented object selected by `pickNextByStartTime`. The
`evt.boss ? … : …` test is falsy on an absent or empty boss name. -/
def formatEventForOverlay (evt : Option (Entry × Int)) (ty : String) :
    Option Proj :=
  match evt with
  | none => none
  | some (e, _) =>
    if ty = "world_boss" then
      some { type := "world_boss",
             title := (match e.boss with
               | some b => if b = "" then "World Boss" else "World Boss: " ++ b
               | none => "World Boss"),
             zone := e.zone.headD "",
             startTime := e.startTime,
             startTs := toUnixSeconds e.startTime }
    else if ty = "legion" then
      some { type := "legion", title := "Légion", zone := "",
             startTime := e.startTime, startTs := toUnixSeconds e.startTime }
    else if ty = "helltide" then
      some { type := "helltide", title := "Helltide", zone := "",
             startTime := e.startTime, startTs := toUnixSeconds e.startTime }
    else none

/-- The three optional arrays of the helltides.com schedule response; `none`
models an absent / non-array field. -/
structure Schedule where
  world_boss : Option (List Entry)
  legion : Option (List Entry)
  helltide : Option (List Entry)
deriving DecidableEq, Repr

/-- The three projected events stored under `state.events`. -/
structure EventsTriple where
  nextWorldBoss : Option Proj
  nextLegion : Option Proj
  nextHelltide : Option Proj
deriving DecidableEq, Repr

/-! ## The top-level state document and `ensureBuildState` -/

/-- The fields of `state.json` that the embedded routines read or write.
`currentBuildIndex = none` models a missing or non-integer (e.g. fractional)
stored cursor, exactly the values on which `Number.isInteger` is false. -/
structure StateDoc where
  nowIso : String
  currentBuildIndex : Option Int
  builds : List Build
  build : Option Build
  events : EventsTriple
deriving DecidableEq, Repr

/-- The cursor repair of `ensureBuildState`: a stored value on which
`Number.isInteger` is false (`none` here), or an integer out of
`[0, len-1]`, is recomputed to `len - 1` (`0` for an empty list). -/
def fixIndex (stored : Option Int) (len : Nat) : Int :=
  match stored with
  | some i => if 0 ≤ i ∧ i < (len : Int) then i
              else if len ≠ 0 then (len : Int) - 1 else 0
  | none => if len ≠ 0 then (len : Int) - 1 else 0

/-- Model of `ensureBuildState(state)` from `server.mjs`: reload and strip the catalog,
repair an out-of-range or non-integer cursor to the last index, and set
`build` to `builds[currentBuildIndex] || defaultBuild()`. -/
def ensureBuildState (file : BuildFile) (doc : StateDoc) : StateDoc :=
  let builds := stripPlaceholder (readBuilds file)
  let idx := fixIndex doc.currentBuildIndex builds.length
  { doc with
      builds := builds,
      currentBuildIndex := some idx,
      build := some (builds.getD idx.toNat defaultBuild) }

/-! ## `refreshEvents` -/

/-- Outcome of one `refreshEvents` run: the value returned to the caller, the
state document on disk afterwards, and whether a broadcast was issued. -/
structure RefreshOutcome where
  returned : Option StateDoc
  disk : StateDoc
  didBroadcast : Bool
deriving DecidableEq, Repr

/-- Model of `refreshEvents()` from `server.mjs`. The schedule fetch (network +
status check + JSON parse) is summarised by an `Except`: `Except.error`
covers a network error, a non-success HTTP status and an unparseable body,
all of which throw before any state is touched. On success the state is
re-derived, updated, persisted and broadcast. -/
def refreshEvents (fetched : Except String Schedule) (nowMs : Int)
    (nowIso : String) (file : BuildFile) (disk : StateDoc) : RefreshOutcome :=
  match fetched with
  | .error _ => { returned := none, disk := disk, didBroadcast := false }
  | .ok schedule =>
    let nextWorldBoss := formatEventForOverlay
      (pickNextByStartTime schedule.world_boss nowMs) "world_boss"
    let nextLegion := formatEventForOverlay
      (pickNextByStartTime schedule.legion nowMs) "legion"
    let nextHelltide := formatEventForOverlay
      (pickNextByStartTime schedule.helltide nowMs) "helltide"
    let st := ensureBuildState file disk
    let builds := readBuilds file
    let st := { st with
        nowIso := nowIso,
        events := ⟨nextWorldBoss, nextLegion, nextHelltide⟩,
        builds := builds,
        build := some (builds.getD
          ((st.currentBuildIndex.getD 0).toNat) defaultBuild) }
    { returned := some st, disk := st, didBroadcast := true }

/-! ## Counters -/

/-- The `state.counters` object. JS numbers are modelled by `Int` so that the
clamping in the decrement handlers is meaningful. -/
structure Counters where
  deaths : Int
  uniques : Int
deriving DecidableEq, Repr

/-- Initial counters, as seeded by `ensureDirs` / `ensureCounters`. -/
def initCounters : Counters := { deaths := 0, uniques := 0 }

/-- One counter-mutating HTTP endpoint. -/
inductive CounterOp where
  | deathsInc
  | deathsDec
  | deathsReset
  | uniquesInc
  | uniquesDec
  | uniquesReset
  | bothReset
deriving DecidableEq, Repr

/-- The effect of one counter endpoint on the counters, straight from the
handlers in `server.mjs` (`Math.max(x - 1, 0)` for the decrements). -/
def counterStep (c : Counters) (op : CounterOp) : Counters :=
  match op with
  | .deathsInc => { c with deaths := c.deaths + 1 }
  | .deathsDec => { c with deaths := max (c.deaths - 1) 0 }
  | .deathsReset => { c with deaths := 0 }
  | .uniquesInc => { c with uniques := c.uniques + 1 }
  | .uniquesDec => { c with uniques := max (c.uniques - 1) 0 }
  | .uniquesReset => { c with uniques := 0 }
  | .bothReset => { deaths := 0, uniques := 0 }

/-- The counters after a sequence of endpoint calls starting from `c`. -/
def counterRun (c : Counters) (ops : List CounterOp) : Counters :=
  ops.foldl counterStep c

/-! ## `POST /build` -/

/-- The optional string fields of a `POST /build` (and `/build/update`) body;
`none` models an absent field. -/
structure PostBody where
  source : Option String
  title : Option String
  author : Option String
  updatedOn : Option String
  url : Option String
deriving DecidableEq, Repr

/-- A body with no fields set. -/
def emptyBody : PostBody :=
  { source := none, title := none, author := none, updatedOn := none,
    url := none }

/-- The build record constructed by the `POST /build` handler:
`String(body.f ?? dflt).trim() || fallback` per field, `highlights`
always reset to `[]`. -/
def mkBuild (body : PostBody) : Build :=
  { source := (let s := jsTrim (body.source.getD "manual");
               if s = "" then "manual" else s),
    title := (let t := jsTrim (body.title.getD "");
              if t = "" then placeholderTitle else t),
    author := jsTrim (body.author.getD ""),
    updatedOn := jsTrim (body.updatedOn.getD ""),
    url := jsTrim (body.url.getD ""),
    highlights := [] }

/-- What the `POST /build` handler produces: the persisted catalog, the three
denormalised state fields it writes, and the JSON response. -/
structure PostBuildResult where
  builds : List Build
  currentBuildIndex : Int
  build : Build
  respOk : Bool
  respBuild : Build
deriving DecidableEq, Repr

/-- The `app.post("/build")` handler from `server.mjs`, as a function of the
request body and of the catalog returned by `readBuilds()`. -/
def postBuild (prior : List Build) (body : PostBody) : PostBuildResult :=
  let b := mkBuild body
  let builds := stripPlaceholder (prior ++ [b])
  { builds := builds,
    currentBuildIndex := (builds.length : Int) - 1,
    build := b,
    respOk := true,
    respBuild := b }

/-! ## Build navigation / update / delete / select handlers -/

/-- Successful response shape shared by the `/build/...` mutation endpoints:
`{ok:true, build, currentBuildIndex, total}`. `build` is `Option` because it
is read back from the (re-stripped) list by index. -/
structure NavResp where
  build : Option Build
  currentBuildIndex : Int
  total : Nat
deriving DecidableEq, Repr

/-- Index resolution shared by `/build/update` and `/build/delete`:
a finite body index is truncated and clamped into `[0, total-1]`, otherwise
the (repaired) current cursor is clamped the same way. `bodyIdx` is the
value of `Math.trunc(Number(body.index))` when that number is finite. -/
def resolveTargetIdx (bodyIdx : Option Int) (currentIdx : Int) (total : Nat) :
    Int :=
  match bodyIdx with
  | some i => min (max 0 i) ((total : Int) - 1)
  | none => min (max 0 currentIdx) ((total : Int) - 1)

/-- The `app.post("/build/update")` handler: 400 `"Aucune build"` on an empty
catalog, otherwise overwrite the target build, fields defaulting to the
existing build's values. -/
def buildUpdate (file : BuildFile) (disk : StateDoc) (body : PostBody)
    (bodyIdx : Option Int) : Except String NavResp :=
  let st := ensureBuildState file disk
  let builds := stripPlaceholder (readBuilds file)
  if builds.isEmpty then .error "Aucune build" else
  let targetIdx := resolveTargetIdx bodyIdx (st.currentBuildIndex.getD 0)
    builds.length
  let cur := builds.getD targetIdx.toNat defaultBuild
  let updated : Build :=
    { source := (let s := jsTrim (body.source.getD cur.source);
                 if s = "" then "manual" else s),
      title := (let t := jsTrim (body.title.getD cur.title);
                if t = "" then placeholderTitle else t),
      author := jsTrim (body.author.getD cur.author),
      updatedOn := jsTrim (body.updatedOn.getD cur.updatedOn),
      url := jsTrim (body.url.getD cur.url),
      highlights := [] }
  let builds := stripPlaceholder (builds.set targetIdx.toNat updated)
  .ok { build := builds.get? targetIdx.toNat,
        currentBuildIndex := targetIdx,
        total := builds.length }

/-- The `app.post("/build/delete")` handler: 400 `"Aucune build"` on an empty
catalog, otherwise splice out the target build, reseed with the placeholder
if that left nothing, and clamp the cursor to the new length. -/
def buildDelete (file : BuildFile) (disk : StateDoc) (bodyIdx : Option Int) :
    Except String NavResp :=
  let st := ensureBuildState file disk
  let builds := stripPlaceholder (readBuilds file)
  if builds.isEmpty then .error "Aucune build" else
  let targetIdx := resolveTargetIdx bodyIdx (st.currentBuildIndex.getD 0)
    builds.length
  let builds := builds.eraseIdx targetIdx.toNat
  let builds := if builds.isEmpty then [defaultBuild] else builds
  let builds := stripPlaceholder builds
  let newIdx := min targetIdx ((builds.length : Int) - 1)
  .ok { build := builds.get? newIdx.toNat,
        currentBuildIndex := newIdx,
        total := builds.length }

/-- The `app.post("/build/next")` handler: 400 `"Aucune build"` when the
(repaired) catalog is empty, otherwise advance the cursor cyclically. -/
def buildNext (file : BuildFile) (disk : StateDoc) : Except String NavResp :=
  let st := ensureBuildState file disk
  let total := st.builds.length
  if total = 0 then .error "Aucune build" else
  let idx := ((st.currentBuildIndex.getD 0) + 1) % (total : Int)
  .ok { build := st.builds.get? idx.toNat,
        currentBuildIndex := idx,
        total := total }

/-- The `app.post("/build/prev")` handler: 400 `"Aucune build"` when the
(repaired) catalog is empty, otherwise retreat the cursor cyclically. -/
def buildPrev (file : BuildFile) (disk : StateDoc) : Except String NavResp :=
  let st := ensureBuildState file disk
  let total := st.builds.length
  if total = 0 then .error "Aucune build" else
  let idx := ((st.currentBuildIndex.getD 0) - 1 + (total : Int)) % (total : Int)
  .ok { build := st.builds.get? idx.toNat,
        currentBuildIndex := idx,
        total := total }

/-- The `app.post("/build/select")` handler: 400 `"Aucune build"` when the
catalog is empty, 400 `"index requis"` when the body index is not a finite
number, otherwise clamp the index into range. -/
def buildSelect (file : BuildFile) (disk : StateDoc) (bodyIdx : Option Int) :
    Except String NavResp :=
  let st := ensureBuildState file disk
  let total := st.builds.length
  if total = 0 then .error "Aucune build" else
  match bodyIdx with
  | none => .error "index requis"
  | some i =>
    let clamped := min (max 0 i) ((total : Int) - 1)
    .ok { build := st.builds.get? clamped.toNat,
          currentBuildIndex := clamped,
          total := total }

/-! ## Panel countdown formatter (`panel.js`) -/

/-- Model of `pad2(n)` from `panel.js`: JS pad-start to two digits. -/
def pad2 (n : Nat) : String :=
  let s := toString n
  if s.length < 2 then "0" ++ s else s

/-- Model of `formatCountdown(targetTs)` from `panel.js`, with the current epoch-second
instant `now` made explicit. `none` models a missing target (`undefined`) or
a non-finite one (`NaN`); note that `!targetTs` is also true for the number
`0`, so a target of exactly epoch second 0 takes the em-dash branch. -/
def formatCountdown (targetTs : Option Int) (now : Int) : String :=
  match targetTs with
  | none => "—"
  | some t =>
    if t = 0 then "—" else
    let diff := t - now
    if diff ≤ 0 then "0:00" else
    let n := diff.toNat
    let h := n / 3600
    let m := (n % 3600) / 60
    let s := n % 60
    if 0 < h then toString h ++ ":" ++ pad2 m ++ ":" ++ pad2 s
    else toString m ++ ":" ++ pad2 s

/-! ## Mobalytics importer: regex machinery

`importFromMobalytics` flattens the page's body text and runs three regex
families over it: the `Updated on …` date, the `\bBy\s+…\b` author, and one
`<slot>\s+([A-Za-z0-9'’\-: ]{2,60})` search per equipment slot (flag `i`).
The matchers below implement exactly those patterns on `List Char`, with
the backtracking order of a leftmost-match regex engine: positions are tried
left to right, and at a position greedy quantifiers give back characters
one at a time. -/

/-- Membership in the slot-item character class `[A-Za-z0-9'’\-: ]`
(the `i` flag adds nothing: both cases are present). `'` is `Char.ofNat 39`
and `’` is `Char.ofNat 8217`. -/
def isItemChar (c : Char) : Bool :=
  (('A' ≤ c && c ≤ 'Z') || ('a' ≤ c && c ≤ 'z') || ('0' ≤ c && c ≤ '9')
    || c == Char.ofNat 39 || c == Char.ofNat 8217 || c == '-' || c == ':'
    || c == ' ')

/-- ASCII letter test (regex `[A-Za-z]`). -/
def isAlphaChar (c : Char) : Bool :=
  ('A' ≤ c && c ≤ 'Z') || ('a' ≤ c && c ≤ 'z')

/-- ASCII digit test (regex `\d`). -/
def isDigitChar (c : Char) : Bool :=
  '0' ≤ c && c ≤ '9'

/-- Regex word character (`\w`, used for `\b`): `[A-Za-z0-9_]`. -/
def isWordChar (c : Char) : Bool :=
  isAlphaChar c || isDigitChar c || c == '_'

/-- Membership in the author character class `[A-Za-z0-9_ -]`. -/
def isAuthorChar (c : Char) : Bool :=
  isWordChar c || c == ' ' || c == '-'

/-- Case-insensitive literal match: if `pat` is a prefix of `s` up to ASCII
case, return the remainder of `s`. -/
def ciDrop (pat s : List Char) : Option (List Char) :=
  match pat, s with
  | [], rest => some rest
  | _ :: _, [] => none
  | p :: ps, c :: cs => if lowerChar p = lowerChar c then ciDrop ps cs else none

/-- Whitespace-quantifier backtracking for the slot regex: try `n` whitespace characters
(greedy, from the maximal run downwards), then capture a maximal run of
item-class characters truncated to 60; the capture needs at least 2
characters. `rest` is the text following the slot literal. -/
def slotTryWs (rest : List Char) : Nat → Option (List Char)
  | 0 => none
  | n + 1 =>
    let after := rest.drop (n + 1)
    let run := after.takeWhile isItemChar
    let t := min run.length 60
    if 2 ≤ t then some (after.take t) else slotTryWs rest n

/-- One attempt of the slot regex at the start of `s`: the slot literal
(case-insensitively), then `\s+`, then the capture group. -/
def slotMatchAt (slot s : List Char) : Option (List Char) :=
  match ciDrop slot s with
  | none => none
  | some rest => slotTryWs rest (rest.takeWhile isWsChar).length

/-- Leftmost match of the slot regex over the whole text: the first position
where the full pattern succeeds wins (`String.prototype.match`, no `g`
flag). -/
def slotFindCapture (slot : List Char) : List Char → Option (List Char)
  | [] => none
  | c :: cs =>
    match slotMatchAt slot (c :: cs) with
    | some cap => some cap
    | none => slotFindCapture slot cs

/-- The 13 equipment-slot labels of `importFromMobalytics`, in source order. -/
def slotLabels : List String :=
  ["Helm", "Chest armor", "Gloves", "Pants", "Boots", "Amulet", "Ring 1",
   "Ring 2", "Dual wield weapon 1", "Dual wield weapon 2", "Ranged weapon",
   "Slashing weapon", "Bludgeoning weapon"]

/-- The highlight contributed by one slot: the trimmed capture, formatted as
`"<Slot>: <item>"`, unless the capture is exactly (case-insensitively) the
word `"Empty"` or the regex does not match. -/
def slotEntry (slot : String) (body : List Char) : Option String :=
  match slotFindCapture slot.data body with
  | none => none
  | some cap =>
    let item := trimChars cap
    if lowerChars item = "empty".data then none
    else some (slot ++ ": " ++ String.mk item)

/-- The `highlights` list built by `importFromMobalytics` from the flattened
body text: one pass over the 13 slots in order, keeping the non-`Empty`
matches. -/
def mobaHighlights (bodyText : String) : List String :=
  slotLabels.filterMap (fun slot => slotEntry slot bodyText.data)

/-- Case-sensitive literal match: if `pat` is a prefix of `s`, return the
remainder of `s`. -/
def csDrop (pat s : List Char) : Option (List Char) :=
  match pat, s with
  | [], rest => some rest
  | _ :: _, [] => none
  | p :: ps, c :: cs => if p = c then csDrop ps cs else none

/-- JS `String.prototype.startsWith`, character by character. -/
def strStartsWith (s pat : String) : Bool :=
  (csDrop pat.data s.data).isSome

/-- Tail of the `Updated on ([A-Za-z]{3,9} \d{1,2}, \d{4})` regex after the
literal: a 3–9 letter month (the greedy quantifier can only stop at the end
of the maximal letter run, since the next pattern character is a space), a
space, a 1–2 digit day, `", "`, and at least four digits of which the first
four are captured. -/
def updatedTail (rest : List Char) : Option (List Char) :=
  let mon := rest.takeWhile isAlphaChar
  let r := mon.length
  if 3 ≤ r ∧ r ≤ 9 then
    match rest.drop r with
    | ' ' :: rest2 =>
      let day := rest2.takeWhile isDigitChar
      let d := day.length
      if 1 ≤ d ∧ d ≤ 2 then
        match rest2.drop d with
        | ',' :: ' ' :: rest3 =>
          let yr := rest3.takeWhile isDigitChar
          if 4 ≤ yr.length then
            some (mon ++ ' ' :: (day ++ ',' :: ' ' :: yr.take 4))
          else none
        | _ => none
      else none
    | _ => none
  else none

/-- Leftmost match of the `Updated on …` regex over the body text. -/
def updatedScan : List Char → Option (List Char)
  | [] => none
  | c :: cs =>
    match (match csDrop "Updated on ".data (c :: cs) with
           | some rest => updatedTail rest
           | none => none) with
    | some cap => some cap
    | none => updatedScan cs

/-- The `updatedOn` field extracted by `importFromMobalytics`: the capture of
the first `Updated on …` match, or the empty string. -/
def updatedOnOf (bodyText : String) : String :=
  match updatedScan bodyText.data with
  | some cap => String.mk cap
  | none => ""

/-- Capture-length backtracking with the trailing boundary of the author regex: try a
capture of `k` author-class characters, longest first, accepting when a word
boundary follows the capture. -/
def authorTryK (after : List Char) : Nat → Option (List Char)
  | 0 => none
  | k + 1 =>
    if k + 1 < 2 then none
    else
      let lastc := after.getD k ' '
      let nextWord := ((after.get? (k + 1)).map isWordChar).getD false
      if isWordChar lastc != nextWord then some (after.take (k + 1))
      else authorTryK after k

/-- Whitespace-quantifier backtracking for the author regex: try `n` whitespace characters,
greedy, then the capture-and-boundary step. -/
def authorTryWs (rest : List Char) : Nat → Option (List Char)
  | 0 => none
  | n + 1 =>
    let after := rest.drop (n + 1)
    let run := after.takeWhile isAuthorChar
    match authorTryK after (min run.length 30) with
    | some cap => some cap
    | none => authorTryWs rest n

/-- One attempt of `\bBy\s+([A-Za-z0-9_ -]{2,30})\b` at the start of `s`:
the leading `\b` requires the preceding character (if any) to be a non-word
character. -/
def authorMatchAt (s : List Char) (prevWord : Bool) : Option (List Char) :=
  if prevWord then none
  else match s with
  | 'B' :: 'y' :: rest => authorTryWs rest (rest.takeWhile isWsChar).length
  | _ => none

/-- Leftmost match of the author regex, tracking whether the previous
character was a word character (for the leading `\b`). -/
def authorScan : List Char → Bool → Option (List Char)
  | [], _ => none
  | c :: cs, prevWord =>
    match authorMatchAt (c :: cs) prevWord with
    | some cap => some cap
    | none => authorScan cs (isWordChar c)

/-- The `author` field extracted by `importFromMobalytics`: the trimmed
capture of the first `\bBy\s+…\b` match, or the empty string. -/
def authorOf (bodyText : String) : String :=
  match authorScan bodyText.data false with
  | some cap => String.mk (trimChars cap)
  | none => ""

/-- Whitespace-run collapsing, as in the replace-all-whitespace call, via a previous-character-was-whitespace
flag. -/
def collapseGo : Bool → List Char → List Char
  | _, [] => []
  | prevWs, c :: cs =>
    if isWsChar c then
      (if prevWs then collapseGo true cs else ' ' :: collapseGo true cs)
    else c :: collapseGo false cs

/-- The body-text flattening of `importFromMobalytics`:
`$("body").text().replace(/\s+/g, " ").trim()`. -/
def collapseWs (s : String) : String :=
  String.mk (trimChars (collapseGo false s.data))

/-! ## Mobalytics importer and its HTTP handler -/

/-- What the external HTML parser hands the importer: the text of the first
`h1` element and the raw body text. -/
structure Page where
  h1Text : String
  rawBodyText : String
deriving DecidableEq, Repr

/-- The build record assembled by `importFromMobalytics` from a successfully
fetched page. -/
def importBuildOfPage (url : String) (page : Page) : Build :=
  let bodyText := collapseWs page.rawBodyText
  { source := "mobalytics",
    title := (let t := jsTrim page.h1Text;
              if t = "" then "Build (Mobalytics)" else t),
    author := authorOf bodyText,
    updatedOn := updatedOnOf bodyText,
    url := url,
    highlights := mobaHighlights bodyText }

/-- Model of `importFromMobalytics(url)` from `server.mjs`, as a function of the fetch
outcome: a network failure rethrows its message, a non-success status throws
`Mobalytics fetch failed: HTTP <status>` (`res.ok` is status 200–299), and
otherwise the page is scraped into a build. -/
def importFromMobalytics (url : String)
    (fetched : Except String (Nat × Page)) : Except String Build :=
  match fetched with
  | .error m => .error m
  | .ok (status, page) =>
    if ¬(200 ≤ status ∧ status ≤ 299) then
      .error ("Mobalytics fetch failed: HTTP " ++ toString status)
    else .ok (importBuildOfPage url page)

/-- HTTP response of `GET /import/mobalytics`. -/
inductive ImportResp where
  | ok (build : Build)
  | err (status : Nat) (msg : String)
deriving DecidableEq, Repr

/-- Outcome of the `GET /import/mobalytics` handler: the response, and
whether the importer (and hence an outbound fetch) was ever invoked. -/
structure ImportOutcome where
  resp : ImportResp
  fetchAttempted : Bool
deriving DecidableEq, Repr

/-- The `app.get("/import/mobalytics")` handler from `server.mjs`, as a
function of the decoded-and-trimmed `url` query parameter and of the fetch
outcome the importer would see: a URL without the `https://mobalytics.gg/`
prefix is rejected with 400 before any fetch; an importer exception becomes
a 500 with the exception message. -/
def importMobalytics (url : String) (fetched : Except String (Nat × Page)) :
    ImportOutcome :=
  if ¬(strStartsWith url "https://mobalytics.gg/") then
    { resp := .err 400 "URL invalide (attendu: https://mobalytics.gg/...)",
      fetchAttempted := false }
  else match importFromMobalytics url fetched with
    | .ok b => { resp := .ok b, fetchAttempted := true }
    | .error m => { resp := .err 500 m, fetchAttempted := true }

/-! ## Shared lemmas -/

/-- A list reseeded with `[defaultBuild]` when empty is never empty. -/
theorem seed_ne_nil (X : List Build) :
    (if X.isEmpty then [defaultBuild] else X) ≠ [] := by
  split
  · simp
  · next h => exact List.isEmpty_eq_false.mp (by simpa using h)

/-- Lemma: `stripPlaceholder` never returns an empty list. -/
theorem stripPlaceholder_ne_nil (l : List Build) : stripPlaceholder l ≠ [] :=
  seed_ne_nil _

/-- Lemma: `stripPlaceholder` results are non-empty (length form). -/
theorem stripPlaceholder_length_pos (l : List Build) :
    0 < (stripPlaceholder l).length :=
  List.length_pos.mpr (stripPlaceholder_ne_nil l)

/-- Lemma: `readBuilds` never returns an empty list, whatever `build.json` holds. -/
theorem readBuilds_ne_nil (file : BuildFile) : readBuilds file ≠ [] := by
  cases file with
  | corrupt => simp [readBuilds]
  | arr l => exact stripPlaceholder_ne_nil l
  | obj b => exact stripPlaceholder_ne_nil [b]
  | scalar => simp [readBuilds]

/-- An in-range `get?` agrees with `getD`. -/
theorem get?_eq_some_getD {α : Type} (l : List α) (n : Nat) (d : α)
    (h : n < l.length) : l.get? n = some (l.getD n d) := by
  induction l generalizing n with
  | nil => simp at h
  | cons a t ih =>
    cases n with
    | zero => simp [List.getD]
    | succ m => simpa [List.getD] using ih m (by simpa using h)

/-- The repaired cursor is always in `[0, len-1]` when the list is
non-empty. -/
theorem fixIndex_bounds (stored : Option Int) (len : Nat) (h : 0 < len) :
    0 ≤ fixIndex stored len ∧ fixIndex stored len < (len : Int) := by
  cases stored with
  | none => simp only [fixIndex]; split <;> omega
  | some i =>
    simp only [fixIndex]
    split
    · next hin => omega
    · split <;> omega

/-- An invalid stored cursor is repaired to the last index. -/
theorem fixIndex_invalid (stored : Option Int) (len : Nat) (h : 0 < len)
    (hinv : match stored with
      | some j => j < 0 ∨ (len : Int) ≤ j
      | none => True) :
    fixIndex stored len = (len : Int) - 1 := by
  cases stored with
  | none => simp only [fixIndex]; split <;> omega
  | some i =>
    simp only [fixIndex]
    split
    · next hin => simp only at hinv; omega
    · split <;> omega

/-- A sample non-placeholder build used by concrete instances. -/
def mobBuild : Build :=
  { source := "mobalytics", title := "X", author := "", updatedOn := "",
    url := "", highlights := [] }

/-- A second non-placeholder build (manual source, real title). -/
def manualBuild2 : Build :=
  { source := "manual", title := "Y", author := "", updatedOn := "",
    url := "", highlights := [] }

/-- Empty events triple, for concrete state documents. -/
def emptyEvents : EventsTriple :=
  { nextWorldBoss := none, nextLegion := none, nextHelltide := none }

/-- A state document with a given stored cursor and nothing else. -/
def docWithIndex (i : Option Int) : StateDoc :=
  { nowIso := "", currentBuildIndex := i, builds := [], build := none,
    events := emptyEvents }

/-! ## C2: `stripPlaceholder` hygiene -/

/-- C2: on a list of more than one element, `stripPlaceholder` removes
exactly the placeholder-pattern entries (source `"manual"`, placeholder
title) and keeps the rest in relative order (it equals the filter, and is a
sublist of the input); when the input is empty, not a list, or the filtering
leaves nothing, it returns exactly `[defaultBuild]`, whose fields are the
placeholder values; the result is never empty. -/
theorem stripPlaceholder_hygiene :
    (∀ l : List Build, 1 < l.length →
      l.filter (fun b => !placeholderPat b) ≠ [] →
        stripPlaceholder l = l.filter (fun b => !placeholderPat b) ∧
        (stripPlaceholder l).Sublist l ∧
        (∀ b : Build, b ∈ stripPlaceholder l ↔
          b ∈ l ∧ placeholderPat b = false)) ∧
    (∀ l : List Build, 1 < l.length →
      l.filter (fun b => !placeholderPat b) = [] →
        stripPlaceholder l = [defaultBuild]) ∧
    stripPlaceholder [] = [defaultBuild] ∧
    stripPlaceholderJS none = [defaultBuild] ∧
    defaultBuild.source = "manual" ∧ defaultBuild.title = placeholderTitle ∧
    defaultBuild.author = "" ∧ defaultBuild.updatedOn = "" ∧
    defaultBuild.url = "" ∧ defaultBuild.highlights = [] ∧
    (∀ l : List Build, stripPlaceholder l ≠ []) := by
  refine ⟨?_, ?_, rfl, rfl, rfl, rfl, rfl, rfl, rfl, rfl,
    stripPlaceholder_ne_nil⟩
  · intro l hlen hf
    have he : stripPlaceholder l = l.filter (fun b => !placeholderPat b) := by
      simp only [stripPlaceholder, if_pos hlen]
      rw [if_neg]
      simp [List.isEmpty_iff, hf]
    refine ⟨he, ?_, ?_⟩
    · rw [he]; exact List.filter_sublist l
    · intro b
      rw [he, List.mem_filter]
      simp [Bool.not_eq_true']
  · intro l hlen hf
    simp only [stripPlaceholder, if_pos hlen, hf]
    rfl

/-- Concrete instance of C2: stripping a two-element catalog removes the
placeholder and keeps the real build. -/
theorem stripPlaceholder_hygiene_witness :
    stripPlaceholder [defaultBuild, mobBuild] = [mobBuild] := by
  have h := (stripPlaceholder_hygiene.1 [defaultBuild, mobBuild]
    (by decide) (by decide)).1
  rw [h]
  decide

/-! ## C3: `ensureBuildState` clamps the cursor -/

/-- C3: for any stored state document and any catalog file, the state
produced by `ensureBuildState` has a non-empty build list, an integer cursor
in `[0, N-1]`, a `build` field equal to `builds[currentBuildIndex]`, and any
invalid stored cursor (non-integer, negative, or `≥ N`) is recomputed to the
last index `N - 1`. -/
theorem ensureBuildState_clamps (file : BuildFile) (doc : StateDoc) :
    ∃ i : Int,
      (ensureBuildState file doc).currentBuildIndex = some i ∧
      0 ≤ i ∧
      i < ((ensureBuildState file doc).builds.length : Int) ∧
      0 < (ensureBuildState file doc).builds.length ∧
      (ensureBuildState file doc).builds.get? i.toNat =
        some ((ensureBuildState file doc).builds.getD i.toNat defaultBuild) ∧
      (ensureBuildState file doc).build =
        some ((ensureBuildState file doc).builds.getD i.toNat defaultBuild) ∧
      ((match doc.currentBuildIndex with
        | some j => j < 0 ∨ ((ensureBuildState file doc).builds.length : Int) ≤ j
        | none => True) →
        i = ((ensureBuildState file doc).builds.length : Int) - 1) := by
  have hb : (ensureBuildState file doc).builds
      = stripPlaceholder (readBuilds file) := rfl
  have hpos : 0 < (stripPlaceholder (readBuilds file)).length :=
    stripPlaceholder_length_pos _
  obtain ⟨h0, h1⟩ := fixIndex_bounds doc.currentBuildIndex
    (stripPlaceholder (readBuilds file)).length hpos
  refine ⟨fixIndex doc.currentBuildIndex
    (stripPlaceholder (readBuilds file)).length, rfl, h0, ?_, ?_, ?_, rfl, ?_⟩
  · rw [hb]; exact h1
  · rw [hb]; exact hpos
  · rw [hb]
    exact get?_eq_some_getD _ _ _ (by omega)
  · intro hinv
    rw [hb]
    exact fixIndex_invalid doc.currentBuildIndex _ hpos hinv

/-- Concrete instance of C3: a stored cursor of 99 over a two-build catalog
is repaired to the last index 1, and `build` is that last build. -/
theorem ensureBuildState_clamps_witness :
    (ensureBuildState (.arr [mobBuild, manualBuild2])
      (docWithIndex (some 99))).currentBuildIndex = some 1 := by
  obtain ⟨i, hsome, _, _, _, _, _, hlast⟩ :=
    ensureBuildState_clamps (.arr [mobBuild, manualBuild2])
      (docWithIndex (some 99))
  rw [hsome, hlast]
  · decide
  · right
    decide

/-! ## C4: counters never go negative -/

/-- One endpoint call preserves non-negativity of both counters. -/
theorem counterStep_nonneg (c : Counters) (op : CounterOp)
    (hd : 0 ≤ c.deaths) (hu : 0 ≤ c.uniques) :
    0 ≤ (counterStep c op).deaths ∧ 0 ≤ (counterStep c op).uniques := by
  cases op <;> simp [counterStep] <;> omega

/-- Runs from any non-negative counters stay non-negative. -/
theorem counterRun_nonneg (ops : List CounterOp) (c : Counters)
    (hd : 0 ≤ c.deaths) (hu : 0 ≤ c.uniques) :
    0 ≤ (counterRun c ops).deaths ∧ 0 ≤ (counterRun c ops).uniques := by
  induction ops generalizing c with
  | nil => exact ⟨hd, hu⟩
  | cons op rest ih =>
    obtain ⟨hd2, hu2⟩ := counterStep_nonneg c op hd hu
    exact ih (counterStep c op) hd2 hu2

/-- C4: every state reachable from `{deaths: 0, uniques: 0}` through the
counter endpoints has non-negative counters; three consecutive death
decrements from 0 leave 0 after each call, and a decrement at `deaths = 5`
(reached by five increments) yields 4. -/
theorem counters_never_negative :
    (∀ ops : List CounterOp,
      0 ≤ (counterRun initCounters ops).deaths ∧
      0 ≤ (counterRun initCounters ops).uniques) ∧
    counterRun initCounters [.deathsDec] = { deaths := 0, uniques := 0 } ∧
    counterRun initCounters [.deathsDec, .deathsDec]
      = { deaths := 0, uniques := 0 } ∧
    counterRun initCounters [.deathsDec, .deathsDec, .deathsDec]
      = { deaths := 0, uniques := 0 } ∧
    counterRun initCounters (List.replicate 5 .deathsInc ++ [.deathsDec])
      = { deaths := 4, uniques := 0 } := by
  refine ⟨?_, by decide, by decide, by decide, by decide⟩
  intro ops
  exact counterRun_nonneg ops initCounters (by decide) (by decide)

/-! ## C5: `pickNextByStartTime` selects the soonest strictly-future entry -/

/-- Lemma: `entryWithMs` discards exactly the entries with no finite start time or
a start time not strictly in the future. -/
theorem entryWithMs_eq_none_iff (now : Int) (e : Entry) :
    entryWithMs now e = none ↔
      ∀ ms : Int, e.startTime = some ms → ms ≤ now := by
  cases h : e.startTime with
  | none => simp [entryWithMs, h]
  | some ms =>
    simp only [entryWithMs, h]
    constructor
    · intro hif ms2 hms2
      rw [Option.some_inj] at hms2
      subst hms2
      by_contra hlt
      rw [if_pos (by omega)] at hif
      exact Option.some_ne_none _ hif
    · intro hall
      rw [if_neg]
      exact not_lt.mpr (hall ms rfl)

/-- What a kept pair of `entryWithMs` looks like. -/
theorem entryWithMs_eq_some_iff (now : Int) (e : Entry) (p : Entry × Int) :
    entryWithMs now e = some p ↔
      e = p.1 ∧ e.startTime = some p.2 ∧ now < p.2 := by
  obtain ⟨p1, p2⟩ := p
  cases h : e.startTime with
  | none => simp [entryWithMs, h]
  | some ms =>
    simp only [entryWithMs, h]
    constructor
    · intro hif
      by_cases hlt : now < ms
      · rw [if_pos hlt, Option.some_inj, Prod.mk.injEq] at hif
        obtain ⟨h1, h2⟩ := hif
        subst h1
        subst h2
        exact ⟨rfl, rfl, hlt⟩
      · rw [if_neg hlt] at hif
        exact absurd hif (by simp)
    · rintro ⟨he, hms, hlt⟩
      have hpp : ms = p2 := Option.some_inj.mp hms
      subst hpp
      subst he
      rw [if_pos hlt]

/-- The three demo world-boss candidates, at epoch seconds 100, 500 and
1500 (i.e. epoch milliseconds 100000 / 500000 / 1500000). -/
def demoEntries : List Entry :=
  [{ startTime := some 100000, boss := none, zone := [] },
   { startTime := some 500000, boss := none, zone := [] },
   { startTime := some 1500000, boss := none, zone := [] }]

/-- C5: `pickNextByStartTime` returns the no-value marker on a non-list
input and exactly when no entry has a finite strictly-future start time;
otherwise it returns a pair from the list whose start time is finite,
strictly future, and minimal among all finite strictly-future start times.
At epoch ms 300000 over candidates {100000, 500000, 1500000} it picks the
500000 entry; with all candidates in the past it returns the no-value
marker. -/
theorem pickNextByStartTime_spec (now : Int) :
    pickNextByStartTime none now = none ∧
    (∀ l : List Entry,
      (pickNextByStartTime (some l) now = none ↔
        ∀ e ∈ l, ∀ ms : Int, e.startTime = some ms → ms ≤ now) ∧
      (∀ p : Entry × Int, pickNextByStartTime (some l) now = some p →
        p.1 ∈ l ∧ p.1.startTime = some p.2 ∧ now < p.2 ∧
        (∀ e ∈ l, ∀ ms : Int, e.startTime = some ms → now < ms →
          p.2 ≤ ms))) ∧
    pickNextByStartTime (some demoEntries) 300000 =
      some ({ startTime := some 500000, boss := none, zone := [] }, 500000) ∧
    pickNextByStartTime (some demoEntries) 1600000 = none := by
  refine ⟨rfl, ?_, by decide, by decide⟩
  intro l
  constructor
  · show (List.insertionSort startMsLe
      (l.filterMap (entryWithMs now))).head? = none ↔ _
    rw [List.head?_eq_none_iff]
    constructor
    · intro hs e he ms hms
      have hperm := List.perm_insertionSort startMsLe
        (l.filterMap (entryWithMs now))
      rw [hs] at hperm
      have hvalid : l.filterMap (entryWithMs now) = [] := hperm.symm.eq_nil
      have := List.filterMap_eq_nil_iff.mp hvalid e he
      exact (entryWithMs_eq_none_iff now e).mp this ms hms
    · intro hall
      have hvalid : l.filterMap (entryWithMs now) = [] :=
        List.filterMap_eq_nil_iff.mpr (fun e he =>
          (entryWithMs_eq_none_iff now e).mpr (fun ms hms => hall e he ms hms))
      rw [hvalid]
      rfl
  · intro p hp
    have hp2 : (List.insertionSort startMsLe
        (l.filterMap (entryWithMs now))).head? = some p := hp
    cases hs : List.insertionSort startMsLe
        (l.filterMap (entryWithMs now)) with
    | nil => rw [hs] at hp2; exact absurd hp2 (by simp)
    | cons q t =>
      rw [hs] at hp2
      have hq : q = p := by
        simpa using hp2
      subst hq
      have hmem : q ∈ l.filterMap (entryWithMs now) :=
        (List.perm_insertionSort startMsLe _).mem_iff.mp
          (by rw [hs]; exact List.mem_cons_self q t)
      obtain ⟨a, ha, hfa⟩ := List.mem_filterMap.mp hmem
      obtain ⟨hae, hast, halt⟩ := (entryWithMs_eq_some_iff now a q).mp hfa
      refine ⟨hae ▸ ha, hae ▸ hast, halt, ?_⟩
      intro e he ms hms hlt
      have hv : (e, ms) ∈ l.filterMap (entryWithMs now) :=
        List.mem_filterMap.mpr ⟨e, he,
          (entryWithMs_eq_some_iff now e (e, ms)).mpr ⟨rfl, hms, hlt⟩⟩
      have hvs : (e, ms) ∈ q :: t := by
        rw [← hs]
        exact (List.perm_insertionSort startMsLe _).symm.mem_iff.mp hv
      rcases List.mem_cons.mp hvs with heq | htl
      · rw [← heq]
      · have hsorted : List.Sorted startMsLe (q :: t) := by
          rw [← hs]
          exact List.sorted_insertionSort startMsLe _
        exact List.rel_of_pairwise_cons hsorted htl

/-- Concrete instance of C5 exercising the universally quantified parts:
over the demo candidates at epoch ms 300000, the minimality clause forces
the selected start time to be at most 1500000. -/
theorem pickNextByStartTime_spec_witness :
    ({ startTime := some 500000, boss := none, zone := [] } : Entry) ∈
        demoEntries ∧
      (500000 : Int) ≤ 1500000 := by
  refine ⟨?_, ?_⟩
  · have h := ((pickNextByStartTime_spec 300000).2.1 demoEntries).2
      ({ startTime := some 500000, boss := none, zone := [] }, 500000)
      (by decide)
    exact h.1
  · have h := ((pickNextByStartTime_spec 300000).2.1 demoEntries).2
      ({ startTime := some 500000, boss := none, zone := [] }, 500000)
      (by decide)
    exact h.2.2.2 { startTime := some 1500000, boss := none, zone := [] }
      (by decide) 1500000 rfl (by decide)

/-! ## C6: a failed schedule fetch leaves state untouched -/

/-- C6: whenever the schedule fetch of `refreshEvents` fails (network error,
non-success status, or unparseable body — all summarised by `Except.error`),
the function returns the no-value marker, the persisted state document is
exactly the one that was on disk, and no broadcast happens. -/
theorem refreshEvents_failure_preserves_state (msg : String) (nowMs : Int)
    (nowIso : String) (file : BuildFile) (disk : StateDoc) :
    refreshEvents (.error msg) nowMs nowIso file disk =
      { returned := none, disk := disk, didBroadcast := false } :=
  rfl

/-! ## C7: import gating and importer failure reporting -/

/-- C7: a `GET /import/mobalytics` whose decoded-and-trimmed `url` does not
start with `https://mobalytics.gg/` is answered 400 with the French error
string and no fetch is attempted; with the prefix present, a network
failure yields a 500 carrying the exception message, and a non-success
upstream status yields a 500 whose message contains the numeric status. -/
theorem importMobalytics_gating (url : String)
    (fetched : Except String (Nat × Page)) :
    (strStartsWith url "https://mobalytics.gg/" = false →
      importMobalytics url fetched =
        { resp := .err 400 "URL invalide (attendu: https://mobalytics.gg/...)",
          fetchAttempted := false }) ∧
    (∀ m : String, strStartsWith url "https://mobalytics.gg/" = true →
      importMobalytics url (.error m) =
        { resp := .err 500 m, fetchAttempted := true }) ∧
    (∀ (status : Nat) (page : Page),
      strStartsWith url "https://mobalytics.gg/" = true →
      ¬(200 ≤ status ∧ status ≤ 299) →
      importMobalytics url (.ok (status, page)) =
        { resp := .err 500 ("Mobalytics fetch failed: HTTP " ++
            toString status), fetchAttempted := true } ∧
      ∃ a b : String,
        "Mobalytics fetch failed: HTTP " ++ toString status =
          a ++ toString status ++ b) := by
  refine ⟨?_, ?_, ?_⟩
  · intro hpre
    simp [importMobalytics, hpre]
  · intro m hpre
    simp [importMobalytics, hpre, importFromMobalytics]
  · intro status page hpre hbad
    constructor
    · simp [importMobalytics, hpre, importFromMobalytics, hbad]
    · exact ⟨"Mobalytics fetch failed: HTTP ", "", by simp⟩

/-- Concrete instance of C7: a non-Mobalytics URL is rejected 400 without a
fetch, and a 404 upstream becomes a 500 naming the status. -/
theorem importMobalytics_gating_witness :
    importMobalytics "https://example.com/guide" (.ok (200, ⟨"", ""⟩)) =
      { resp := .err 400 "URL invalide (attendu: https://mobalytics.gg/...)",
        fetchAttempted := false } ∧
    importMobalytics "https://mobalytics.gg/diablo-4/builds/x"
        (.ok (404, ⟨"", ""⟩)) =
      { resp := .err 500 "Mobalytics fetch failed: HTTP 404",
        fetchAttempted := true } := by
  constructor
  · exact (importMobalytics_gating "https://example.com/guide"
      (.ok (200, ⟨"", ""⟩))).1 (by decide)
  · exact ((importMobalytics_gating "https://mobalytics.gg/diablo-4/builds/x"
      (.ok (404, ⟨"", ""⟩))).2.2 404 ⟨"", ""⟩ (by decide) (by omega)).1

/-! ## C10: the empty-catalog 400 branches are unreachable -/

/-- C10: `readBuilds` always yields at least one build, for every possible
content of `build.json`; consequently none of the `/build/update`,
`/build/delete`, `/build/next`, `/build/prev`, `/build/select` handlers can
ever answer 400 `"Aucune build"`. -/
theorem aucuneBuild_unreachable (file : BuildFile) :
    0 < (readBuilds file).length ∧
    (∀ (disk : StateDoc) (body : PostBody) (bodyIdx : Option Int),
      buildUpdate file disk body bodyIdx ≠ .error "Aucune build" ∧
      buildDelete file disk bodyIdx ≠ .error "Aucune build" ∧
      buildNext file disk ≠ .error "Aucune build" ∧
      buildPrev file disk ≠ .error "Aucune build" ∧
      buildSelect file disk bodyIdx ≠ .error "Aucune build") := by
  have hne : stripPlaceholder (readBuilds file) ≠ [] :=
    stripPlaceholder_ne_nil _
  have hempty : (stripPlaceholder (readBuilds file)).isEmpty = false :=
    List.isEmpty_eq_false.mpr hne
  refine ⟨List.length_pos.mpr (readBuilds_ne_nil file), ?_⟩
  intro disk body bodyIdx
  refine ⟨?_, ?_, ?_, ?_, ?_⟩
  · simp only [buildUpdate, hempty]
    simp
  · simp only [buildDelete, hempty]
    simp
  · have : (ensureBuildState file disk).builds.length ≠ 0 := by
      show (stripPlaceholder (readBuilds file)).length ≠ 0
      intro hc
      exact hne (List.length_eq_zero.mp hc)
    simp only [buildNext, this]
    simp
  · have : (ensureBuildState file disk).builds.length ≠ 0 := by
      show (stripPlaceholder (readBuilds file)).length ≠ 0
      intro hc
      exact hne (List.length_eq_zero.mp hc)
    simp only [buildPrev, this]
    simp
  · have : (ensureBuildState file disk).builds.length ≠ 0 := by
      show (stripPlaceholder (readBuilds file)).length ≠ 0
      intro hc
      exact hne (List.length_eq_zero.mp hc)
    simp only [buildSelect, this]
    cases bodyIdx with
    | none => simp
    | some i => simp

/-- Concrete instance of C10: even over a corrupt `build.json` and a blank
state document, `/build/next` answers success, not `"Aucune build"`. -/
theorem aucuneBuild_unreachable_witness :
    buildNext .corrupt (docWithIndex none) ≠ .error "Aucune build" :=
  ((aucuneBuild_unreachable .corrupt).2 (docWithIndex none) emptyBody
    none).2.2.1

/-! ## C1: `POST /build` -/

/-- A body carrying only a title, as in the spec's lifecycle example. -/
def testBody : PostBody :=
  { source := none, title := some "Test", author := none, updatedOn := none,
    url := none }

/-- Appending a build that is not removed by the placeholder filter (or
appending to an empty catalog) leaves it at the last position of the
stripped catalog. -/
theorem stripPlaceholder_concat (l : List Build) (b : Build)
    (h : placeholderPat b = false ∨ l = []) :
    (stripPlaceholder (l ++ [b])).get?
      ((stripPlaceholder (l ++ [b])).length - 1) = some b := by
  rcases h with hb | hl
  · by_cases hlen : 1 < (l ++ [b]).length
    · have hfilter : (l ++ [b]).filter (fun x => !placeholderPat x)
          = l.filter (fun x => !placeholderPat x) ++ [b] := by
        rw [List.filter_append]
        simp [hb]
      have hne : (l ++ [b]).filter (fun x => !placeholderPat x) ≠ [] := by
        rw [hfilter]
        simp
      have hie : ((l ++ [b]).filter (fun x => !placeholderPat x)).isEmpty
          = false := List.isEmpty_eq_false.mpr hne
      have he : stripPlaceholder (l ++ [b])
          = l.filter (fun x => !placeholderPat x) ++ [b] := by
        simp only [stripPlaceholder, if_pos hlen, hie, Bool.false_eq_true,
          if_false]
        exact hfilter
      rw [he]
      have hlen2 : (l.filter (fun x => !placeholderPat x) ++ [b]).length - 1
          = (l.filter (fun x => !placeholderPat x)).length := by
        simp
      rw [hlen2]
      exact List.get?_concat_length _ _
    · have hl : l = [] := by
        cases l with
        | nil => rfl
        | cons x xs =>
          exfalso
          apply hlen
          simp only [List.cons_append, List.length_cons, List.length_append,
            List.length_nil]
          omega
      subst hl
      rfl
  · subst hl
    rfl

/-- C1 (amended): `POST /build` always responds `{ok:true, build}` with the
per-field-defaulted build, writes that build into the state's `build` field
and sets `currentBuildIndex` to the last index of the persisted catalog;
and the appended build actually sits at that index — i.e. genuinely becomes
the current build — whenever it does not match the placeholder pattern or
the prior catalog was empty (a placeholder-pattern build appended alongside
other builds is removed again by `stripPlaceholder`). -/
theorem postBuild_spec (body : PostBody) (prior : List Build) :
    (postBuild prior body).respOk = true ∧
    (postBuild prior body).respBuild = mkBuild body ∧
    (postBuild prior body).build = mkBuild body ∧
    (postBuild prior body).builds
      = stripPlaceholder (prior ++ [mkBuild body]) ∧
    (postBuild prior body).currentBuildIndex
      = ((postBuild prior body).builds.length : Int) - 1 ∧
    0 < (postBuild prior body).builds.length ∧
    (body.source = none → (mkBuild body).source = "manual") ∧
    (∀ s : String, body.source = some s → jsTrim s = "" →
      (mkBuild body).source = "manual") ∧
    (body.title = none → (mkBuild body).title = placeholderTitle) ∧
    (∀ s : String, body.title = some s → jsTrim s = "" →
      (mkBuild body).title = placeholderTitle) ∧
    (body.author = none → (mkBuild body).author = "") ∧
    (body.updatedOn = none → (mkBuild body).updatedOn = "") ∧
    (body.url = none → (mkBuild body).url = "") ∧
    (mkBuild body).highlights = [] ∧
    (placeholderPat (mkBuild body) = false ∨ prior = [] →
      (postBuild prior body).builds.get?
        ((postBuild prior body).builds.length - 1) = some (mkBuild body)) := by
  refine ⟨rfl, rfl, rfl, rfl, rfl, stripPlaceholder_length_pos _,
    ?_, ?_, ?_, ?_, ?_, ?_, ?_, rfl, ?_⟩
  · intro h
    simp only [mkBuild, h]
    decide
  · intro s hs ht
    simp only [mkBuild, hs, Option.getD_some, ht]
    rfl
  · intro h
    simp only [mkBuild, h]
    decide
  · intro s hs ht
    simp only [mkBuild, hs, Option.getD_some, ht]
    rfl
  · intro h
    simp only [mkBuild, h]
    decide
  · intro h
    simp only [mkBuild, h]
    decide
  · intro h
    simp only [mkBuild, h]
    decide
  · intro h
    exact stripPlaceholder_concat prior (mkBuild body) h

/-- Counterexample to C1 as stated: posting an empty body over a catalog
holding one real (imported) build constructs the placeholder build, which
`stripPlaceholder` removes again — so the state's `build` field is *not*
the build at `currentBuildIndex`, and the appended build never became
current. -/
theorem postBuild_counterexample :
    (postBuild [mobBuild] emptyBody).builds.get?
        ((postBuild [mobBuild] emptyBody).currentBuildIndex.toNat) ≠
      some ((postBuild [mobBuild] emptyBody).build) := by
  decide

/-- Concrete instance of C1 (amended): `POST /build` with `{title:"Test"}`
over the seed catalog appends a manual build with that title and it becomes
current. -/
theorem postBuild_spec_witness :
    (postBuild [defaultBuild] testBody).builds.get?
        ((postBuild [defaultBuild] testBody).builds.length - 1)
      = some (mkBuild testBody) :=
  (postBuild_spec testBody
    [defaultBuild]).2.2.2.2.2.2.2.2.2.2.2.2.2.2 (Or.inl (by decide))

/-! ## C8: the `Empty` slot exclusion -/

/-- C8 (amended): a slot whose captured value trims to (case-insensitively)
the word `Empty` contributes no highlight entry; over the body text
`"Helm Empty. Boots Ironbark Greaves"` — where a character outside the
item class separates the two snippets — the Helm match captures exactly
`"Empty"` and is dropped, leaving only the Boots entry. -/
theorem mobaHighlights_empty_excluded :
    (∀ (body : List Char) (slot : String) (cap : List Char),
      slotFindCapture slot.data body = some cap →
      lowerChars (trimChars cap) = "empty".data →
      slotEntry slot body = none) ∧
    mobaHighlights "Helm Empty. Boots Ironbark Greaves"
      = ["Boots: Ironbark Greaves"] ∧
    slotFindCapture "Helm".data "Helm Empty. Boots Ironbark Greaves".data
      = some "Empty".data := by
  refine ⟨?_, by decide, by decide⟩
  intro body slot cap hfind hemp
  simp [slotEntry, hfind, hemp]

/-- Counterexample to C8 as stated: when the two snippets are separated only
by a space — as in flattened body text — the greedy Helm capture extends
across `"Empty Boots Ironbark Greaves"`, is not exactly `"Empty"`, and a
Helm entry is produced as well. -/
theorem mobaHighlights_counterexample :
    "Helm Empty Boots Ironbark Greaves"
      = "Helm Empty" ++ " " ++ "Boots Ironbark Greaves" ∧
    mobaHighlights "Helm Empty Boots Ironbark Greaves"
      = ["Helm: Empty Boots Ironbark Greaves", "Boots: Ironbark Greaves"] ∧
    mobaHighlights "Helm Empty Boots Ironbark Greaves"
      ≠ ["Boots: Ironbark Greaves"] := by
  refine ⟨by decide, by decide, by decide⟩

/-- Concrete instance of C8 (amended): the Helm slot of `"Helm Empty"`
captures exactly `"Empty"` and contributes nothing. -/
theorem mobaHighlights_empty_excluded_witness :
    slotEntry "Helm" "Helm Empty".data = none :=
  mobaHighlights_empty_excluded.1 "Helm Empty".data "Helm" "Empty".data
    (by decide) (by decide)

/-! ## C9: countdown formatting -/

/-- C9 (amended): for a current instant `now ≥ 0`, a target 3661 seconds in
the future renders `"1:01:01"`, a target 61 seconds ahead renders `"1:01"`,
a target zero or more seconds in the past renders `"0:00"` provided the
target timestamp itself is not the number 0, and a missing target — or a
target of exactly epoch second 0, which the falsy `!targetTs` test treats
as missing — renders the em-dash. -/
theorem formatCountdown_spec (now : Int) (hnow : 0 ≤ now) :
    formatCountdown (some (now + 3661)) now = "1:01:01" ∧
    formatCountdown (some (now + 61)) now = "1:01" ∧
    (∀ d : Int, d ≤ 0 → now + d ≠ 0 →
      formatCountdown (some (now + d)) now = "0:00") ∧
    formatCountdown none now = "—" ∧
    formatCountdown (some 0) now = "—" := by
  refine ⟨?_, ?_, ?_, rfl, by simp [formatCountdown]⟩
  · have hne : ¬(now + 3661 = 0) := by omega
    have hd : now + 3661 - now = (3661 : Int) := by ring
    simp only [formatCountdown, if_neg hne, hd]
    decide
  · have hne : ¬(now + 61 = 0) := by omega
    have hd : now + 61 - now = (61 : Int) := by ring
    simp only [formatCountdown, if_neg hne, hd]
    decide
  · intro d hd hne
    have hdiff : now + d - now = d := by ring
    simp only [formatCountdown, if_neg hne, hdiff]
    rw [if_pos hd]

/-- Counterexample to C9 as stated: a target of epoch second 0, which is 300
seconds in the past at instant 300 (hence "negative seconds in the
future"), renders the em-dash rather than `"0:00"`, because `!targetTs` is
true for the number 0. -/
theorem formatCountdown_counterexample :
    formatCountdown (some 0) 300 = "—" ∧
    formatCountdown (some 0) 300 ≠ "0:00" :=
  ⟨rfl, by decide⟩

/-- Concrete instance of C9 (amended) at instant 300. -/
theorem formatCountdown_spec_witness :
    formatCountdown (some (300 + 3661)) 300 = "1:01:01" ∧
    formatCountdown (some (300 + 61)) 300 = "1:01" ∧
    formatCountdown (some (300 + (-42))) 300 = "0:00" ∧
    formatCountdown none 300 = "—" := by
  have h := formatCountdown_spec 300 (by omega)
  exact ⟨h.1, h.2.1, h.2.2.1 (-42) (by omega) (by omega), h.2.2.2.1⟩

end D4SC
